import Mathlib

/-!
Verification development for the devbox CLI tool (src/src/main.rs).

The program maintains a registry mapping SSH host names to lists of container
names, persisted as a JSON file, and builds SSH/docker shell command strings.
We give a shallow embedding of its data model and operations:

* `Registry` models `HashMap<String, Vec<String>>` as an association list with
  unique keys; `insertReg` has the replace-or-add semantics of `HashMap::insert`
  and `lookupReg` is key lookup.
* `Json` models the JSON documents serde produces/consumes; `storageToJson` and
  `storageFromJson` model `serde_json::to_writer` / `from_reader` at the level
  of JSON values for the `DevboxStorage` struct (a single field `containers`).
* The persisted file is a `FileState`: absent, or present with either a JSON
  document or unparseable bytes.
* Remote command executions (`ssh ...` via `Command::output()`) are modelled by
  their observable result `CmdOutput` (exit-status success flag, stdout,
  stderr); `Option CmdOutput` with `none` models an I/O error spawning the
  process (the `?` path of `output()?`).
* `rustLines` models Rust `str::lines` (split at `\n`, a final line ending is
  optional, a `\r` preceding a consumed `\n` is stripped) and `rustTrim`
  models Rust `str::trim` (Unicode White_Space on both ends); both are
  defined over `List Char` so that they evaluate by kernel reduction.
-/

namespace Devbox

/-- The registry: `HashMap<String, Vec<String>>` modelled as an association
list from host name to container-name list, keys unique. -/
abbrev Registry := List (String × List String)

/-- Key lookup in the registry (`HashMap::get`). -/
def lookupReg : Registry → String → Option (List String)
  | [], _ => none
  | (k, v) :: rest, key => if k = key then some v else lookupReg rest key

/-- Model of `HashMap::insert`: replace the value if the key is present, otherwise add
the new entry. -/
def insertReg : Registry → String → List String → Registry
  | [], key, val => [(key, val)]
  | (k, v) :: rest, key, val =>
      if k = key then (key, val) :: rest else (k, v) :: insertReg rest key val

/-- The keys of a registry. -/
def regKeys (reg : Registry) : List String := reg.map Prod.fst

/-- JSON values, as produced and consumed by serde_json. -/
inductive Json where
  | jnull : Json
  | jbool : Bool → Json
  | jnum : Int → Json
  | jstr : String → Json
  | jarr : List Json → Json
  | jobj : List (String × Json) → Json

/-- Serialization of a `Vec<String>` field value. -/
def encodeNames (names : List String) : Json := .jarr (names.map .jstr)

/-- Model of `serde_json::to_writer` on `DevboxStorage`: the document is an object with
the single field `containers`, whose value is an object mapping each host to
its array of container-name strings. -/
def storageToJson (reg : Registry) : Json :=
  .jobj [("containers", .jobj (reg.map fun p => (p.1, encodeNames p.2)))]

/-- Deserialization of a JSON array into `Vec<String>`: every element must be
a string. -/
def decodeStrings : List Json → Option (List String)
  | [] => some []
  | .jstr s :: rest => (decodeStrings rest).map (s :: ·)
  | _ => none

/-- Deserialization of a JSON object into `HashMap<String, Vec<String>>`:
entries are inserted in order (a duplicate key overwrites, as `HashMap::insert`
does); any value that is not an array of strings fails the whole parse. -/
def decodeContainers : List (String × Json) → Registry → Option Registry
  | [], acc => some acc
  | (k, .jarr elems) :: rest, acc =>
      match decodeStrings elems with
      | some names => decodeContainers rest (insertReg acc k names)
      | none => none
  | _, _ => none

/-- Whether a field list contains the key `containers`. -/
def hasContainersKey (fields : List (String × Json)) : Bool :=
  fields.any fun p => p.1 = "containers"

/-- Locate the `containers` field of the document object. serde ignores
unknown fields but rejects a duplicate occurrence of a known field. -/
def findContainersValue : List (String × Json) → Option Json
  | [] => none
  | (k, v) :: rest =>
      if k = "containers" then
        if hasContainersKey rest then none else some v
      else findContainersValue rest

/-- Model of `serde_json::from_reader` on `DevboxStorage` at the JSON-value level:
the document must be an object with a `containers` field holding an object of
string arrays. -/
def storageFromJson : Json → Option Registry
  | .jobj fields =>
      match findContainersValue fields with
      | some (.jobj entries) => decodeContainers entries []
      | _ => none
  | _ => none

/-- Contents of the storage file when it exists: either a JSON document, or
bytes that are not valid JSON at all. -/
inductive FileContent where
  | jsonDoc : Json → FileContent
  | notJson : FileContent

/-- The persisted storage file: `none` when the file does not exist. -/
abbrev FileState := Option FileContent

/-- Errors surfaced as `io::Error` by the program. `invalidData` is
`ErrorKind::InvalidData` (the DataCorruption case, with the serde message
text abstracted away); `spawnFailure` is an OS-level error from spawning a child
process (the `?` path of `output()?`); `otherErr` is `ErrorKind::Other` with
the exact message the source constructs. -/
inductive IoErr where
  | invalidData : IoErr
  | spawnFailure : IoErr
  | otherErr : String → IoErr
  deriving DecidableEq

/-- The `Display` text of an error, used in `eprintln!` lines. Messages for
`invalidData` and `spawnFailure` come from serde / the OS and are abstracted
to fixed placeholder text. -/
def errMsg : IoErr → String
  | .invalidData => "invalid data"
  | .spawnFailure => "spawn failure"
  | .otherErr msg => msg

/-- Model of `load_storage` (main.rs lines 202-213): if the file does not exist return
an empty registry; otherwise parse it, mapping any serde failure to an
`InvalidData` error. -/
def load_storage (fs : FileState) : Except IoErr Registry :=
  match fs with
  | none => .ok []
  | some .notJson => .error .invalidData
  | some (.jsonDoc j) =>
      match storageFromJson j with
      | some reg => .ok reg
      | none => .error .invalidData

/-- Model of `save_storage` (main.rs lines 215-224): truncate-and-write the JSON
serialization of the registry (the success path; OS write errors are outside
this model). -/
def save_storage (reg : Registry) : FileState :=
  some (.jsonDoc (storageToJson reg))

/-- Model of the `load_storage().unwrap_or_else(...)` fallback to an empty
registry in `initialize_containers` (main.rs lines 194-196). -/
def load_or_empty (fs : FileState) : Registry :=
  match load_storage fs with
  | .ok reg => reg
  | .error _ => []

/-- Observable result of a completed child process: `status.success()`,
stdout, stderr. -/
structure CmdOutput where
  success : Bool
  stdout : String
  stderr : String
  deriving DecidableEq

/-- The newline character. -/
def nlChar : Char := Char.ofNat 10

/-- The carriage-return character. -/
def crChar : Char := Char.ofNat 13

/-- Rust `char::is_whitespace`: the Unicode White_Space property. -/
def rustIsWhitespace (c : Char) : Bool :=
  let n := c.toNat
  (9 ≤ n && n ≤ 13) || n = 32 || n = 133 || n = 160 || n = 5760
    || (8192 ≤ n && n ≤ 8202) || n = 8232 || n = 8233 || n = 8239
    || n = 8287 || n = 12288

/-- Rust `str::trim` on the character list: drop Unicode whitespace from both
ends. -/
def trimChars (cs : List Char) : List Char :=
  ((cs.dropWhile rustIsWhitespace).reverse.dropWhile rustIsWhitespace).reverse

/-- Rust `str::trim`. -/
def rustTrim (s : String) : String :=
  String.mk (trimChars s.data)

/-- Split a character list at every newline character; like
`str::split` at the newline character, the result always has one more segment than there are
newlines (so an empty input gives one empty segment). -/
def splitNl : List Char → List (List Char)
  | [] => [[]]
  | c :: rest =>
      let r := splitNl rest
      if c = nlChar then [] :: r
      else
        match r with
        | [] => [[c]]
        | h :: t => (c :: h) :: t

/-- Strip one trailing carriage return from a segment that was terminated by
a newline. -/
def stripCR (cs : List Char) : List Char :=
  if cs.getLast? = some crChar then cs.dropLast else cs

/-- Helper for `rustLines`: the input is the list of segments between `\n`
characters; every segment except the last was terminated by a `\n` (so a
trailing `\r` is stripped from it), and a final empty segment corresponds to
a trailing line ending, which yields no extra line. -/
def linesAux : List (List Char) → List String
  | [] => []
  | [last] => if last = [] then [] else [String.mk last]
  | part :: rest => String.mk (stripCR part) :: linesAux rest

/-- Rust `str::lines`: split at `\n` (or `\r\n`); the final line ending is
optional. -/
def rustLines (s : String) : List String :=
  linesAux (splitNl s.data)

/-- The container-name list `init` computes from the remote stdout
(main.rs lines 189-192): each line, trimmed of surrounding whitespace, in
order, with no filtering. -/
def parseContainerNames (stdout : String) : List String :=
  (rustLines stdout).map rustTrim

/-- Model of `initialize_containers` (main.rs lines 176-200), with the remote
`ssh <host> docker ps -a ...` execution replaced by its observable result
(`none` = spawn I/O error). On success the new file state is returned. -/
def init_containers (sshname : String) (listOut : Option CmdOutput)
    (fs : FileState) : Except IoErr FileState :=
  match listOut with
  | none => .error .spawnFailure
  | some out =>
      if out.success = false then
        .error (.otherErr "Failed to fetch container names over SSH")
      else
        let container_names := parseContainerNames out.stdout
        let storage := load_or_empty fs
        let storage := insertReg storage sshname container_names
        .ok (save_storage storage)

/-- Model of `fetch_container_ip` (main.rs lines 116-174), with the two remote
executions replaced by their observable results (`none` = spawn I/O error).
Returns the result together with a flag recording whether the second (IP)
query was attempted. -/
def fetch_container_ip (netOut ipOut : Option CmdOutput) :
    Except IoErr String × Bool :=
  match netOut with
  | none => (.error .spawnFailure, false)
  | some nOut =>
      if nOut.success = false then
        (.error (.otherErr "Failed to fetch container network name over SSH"),
         false)
      else
        let network_name := rustTrim nOut.stdout
        if network_name = "" then
          (.error (.otherErr "No network found for the specified container"),
           false)
        else
          match ipOut with
          | none => (.error .spawnFailure, true)
          | some iOut =>
              if iOut.success = false then
                (.error
                  (.otherErr "Failed to fetch container IP address over SSH"),
                 true)
              else
                let ip_address := rustTrim iOut.stdout
                if ip_address = "" then
                  (.error (.otherErr
                    "No IP address assigned to the container on the detected network"),
                   true)
                else
                  (.ok ip_address, true)

/-- The NotFound error of step 1 of `fetch_container_ip` (main.rs line 141):
the network-name query succeeded but produced an empty string. -/
def noNetworkFoundErr : IoErr :=
  .otherErr "No network found for the specified container"

/-- The RemoteCommandError of step 1 of `fetch_container_ip` (main.rs
line 133): the SSH process listing the network name exited non-zero. -/
def fetchNetworkErr : IoErr :=
  .otherErr "Failed to fetch container network name over SSH"

/-- The RemoteCommandError of step 2 of `fetch_container_ip` (main.rs
line 161): the SSH process fetching the IP exited non-zero. -/
def fetchIpErr : IoErr :=
  .otherErr "Failed to fetch container IP address over SSH"

/-- The forward command built by the `fp` arm of `main` (main.rs lines
103-106): `format!("ssh -L {0}:{1}:{0} {2} -N", port, container_ip, sshname)`. -/
def fp_command (port container_ip sshname : String) : String :=
  "ssh -L " ++ port ++ ":" ++ container_ip ++ ":" ++ port ++ " " ++ sshname
    ++ " -N"

/-- The command the `fp` arm passes to `execute_command`, when IP resolution
succeeds (main.rs lines 101-110); `none` when it fails (error printed
instead). -/
def fp_built_command (sshname port : String) (netOut ipOut : Option CmdOutput) :
    Option String :=
  match (fetch_container_ip netOut ipOut).1 with
  | .ok container_ip => some (fp_command port container_ip sshname)
  | .error _ => none

/-- The attach command built by the `nvim` arm of `main` (main.rs lines
79-82): the format template is `ssh <sshname> -t ` followed by the
single-quoted docker/tmux invocation with the container name interpolated. -/
def nvim_command (sshname container : String) : String :=
  "ssh " ++ sshname ++ " -t \x27docker exec -it " ++ container
    ++ " bash -c \"tmux attach-session -t nvim || tmux new-session -s nvim\"\x27"

/-- Modelled from the spec (section 4.3): the remote part of the attach
command, `docker exec -it <container> bash -c "tmux attach-session -t nvim ||
tmux new-session -s nvim"`, with the container name inserted verbatim. -/
def nvim_remote_part (container : String) : String :=
  "docker exec -it " ++ container
    ++ " bash -c \"tmux attach-session -t nvim || tmux new-session -s nvim\""

/-- Outcome of one process run: a normal exit with the stdout and stderr
lines it printed, or a panic (Rust `expect`), which aborts the process. -/
inductive ProcResult where
  | finished : List String → List String → ProcResult
  | panicked : String → ProcResult

/-- Whether the process reached a normal exit. -/
def ProcResult.isFinished : ProcResult → Bool
  | .finished _ _ => true
  | .panicked _ => false

/-- Model of `execute_command` (main.rs lines 226-238): spawn `sh -c <command>`;
`.status()` returning an error makes `expect` panic with
"Failed to execute command"; otherwise report success on stdout or failure on
stderr. `spawnStatus` is `none` when spawning the shell fails, otherwise
`some status.success()`. -/
def execute_command (spawnStatus : Option Bool) (context : String) :
    ProcResult :=
  match spawnStatus with
  | none => .panicked "Failed to execute command"
  | some true =>
      .finished ["Successfully executed " ++ context ++ " command."] []
  | some false =>
      .finished [] ["Failed to execute " ++ context ++ " command."]

/-- Rust `{:?}` formatting of a `Vec<String>` (escapes inside the strings
abstracted away). -/
def debugFmtList (xs : List String) : String :=
  "[" ++ String.intercalate ", " (xs.map fun s => "\x22" ++ s ++ "\x22") ++ "]"

/-- A parsed command line: the four subcommands, or anything else (no or
unrecognized subcommand). -/
inductive Cli where
  | init : String → Cli
  | nvim : String → String → Cli
  | list : Cli
  | fp : String → String → String → Cli
  | invalid : Cli

/-- The environment one invocation runs in: the persisted file and the
observable results of the child processes the program may start. `listOut`
is the `docker ps` query of `init`, `netOut`/`ipOut` the two queries of
`fetch_container_ip` (`none` = spawn I/O error), and `spawnStatus` the result
of the shell of `execute_command` (`none` = spawn failure, which panics). -/
structure Env where
  fs : FileState
  listOut : Option CmdOutput
  netOut : Option CmdOutput
  ipOut : Option CmdOutput
  spawnStatus : Option Bool

/-- The subcommand dispatcher of `main` (main.rs lines 68-113): each arm
either runs its operation and reports the error on stderr, or hands a built
command to `execute_command`. -/
def run_subcommand (cli : Cli) (env : Env) : ProcResult :=
  match cli with
  | .init sshname =>
      match init_containers sshname env.listOut env.fs with
      | .ok _ =>
          .finished ["Initialized containers for SSH name: " ++ sshname] []
      | .error e =>
          .finished [] ["Error initializing containers: " ++ errMsg e]
  | .nvim _ container =>
      execute_command env.spawnStatus
        ("Neovim in container \x27" ++ container ++ "\x27")
  | .list =>
      match load_storage env.fs with
      | .ok storage =>
          .finished
            ("Stored containers by SSH name:" ::
              storage.map fun p => "- " ++ p.1 ++ ": " ++ debugFmtList p.2)
            []
      | .error e =>
          .finished [] ["Error loading storage: " ++ errMsg e]
  | .fp _ container _ =>
      match (fetch_container_ip env.netOut env.ipOut).1 with
      | .ok _ =>
          execute_command env.spawnStatus
            ("Port forwarding for container \x27" ++ container ++ "\x27")
      | .error e =>
          .finished []
            ["Failed to fetch IP for container \x27" ++ container ++ "\x27: "
              ++ errMsg e]
  | .invalid =>
      .finished [] ["No valid subcommand was provided"]

/-! ## Registry lemmas -/

/-- Looking up the key just inserted yields the inserted value. -/
theorem lookupReg_insert_self (reg : Registry) (k : String) (v : List String) :
    lookupReg (insertReg reg k v) k = some v := by
  induction reg with
  | nil => simp [insertReg, lookupReg]
  | cons p rest ih =>
      obtain ⟨k1, v1⟩ := p
      by_cases h : k1 = k
      · simp [insertReg, h, lookupReg]
      · simp [insertReg, h, lookupReg, ih]

/-- Inserting one key leaves lookups of every other key unchanged. -/
theorem lookupReg_insert_other (reg : Registry) (k other : String)
    (v : List String) (h : other ≠ k) :
    lookupReg (insertReg reg k v) other = lookupReg reg other := by
  have h1 : ¬ k = other := fun hh => h hh.symm
  induction reg with
  | nil => simp [insertReg, lookupReg, h1]
  | cons p rest ih =>
      obtain ⟨k1, v1⟩ := p
      by_cases hk : k1 = k
      · subst hk
        simp [insertReg, lookupReg, h1]
      · simp [insertReg, hk, lookupReg, ih]

/-- Inserting a fresh key appends the new entry at the end. -/
theorem insertReg_append (reg : Registry) (k : String) (v : List String)
    (h : k ∉ regKeys reg) : insertReg reg k v = reg ++ [(k, v)] := by
  induction reg with
  | nil => simp [insertReg]
  | cons p rest ih =>
      obtain ⟨k1, v1⟩ := p
      simp only [regKeys, List.map_cons, List.mem_cons] at h
      push_neg at h
      have h1 : ¬ k1 = k := fun hh => h.1 hh.symm
      simp [insertReg, h1, ih (by
        intro hm
        exact h.2 (by simpa [regKeys] using hm))]

/-- The keys after an insert: unchanged when the key was present, the key
appended otherwise. -/
theorem regKeys_insertReg (reg : Registry) (k : String) (v : List String) :
    regKeys (insertReg reg k v)
      = if k ∈ regKeys reg then regKeys reg else regKeys reg ++ [k] := by
  simp only [regKeys]
  induction reg with
  | nil => simp [insertReg]
  | cons p rest ih =>
      obtain ⟨k1, v1⟩ := p
      by_cases h : k1 = k
      · subst h
        simp [insertReg]
      · have h2 : ¬ k = k1 := fun hh => h hh.symm
        by_cases hk : k ∈ List.map Prod.fst rest
        · simp [insertReg, h, ih, hk, h2]
        · simp [insertReg, h, ih, hk, h2]

/-- Inserting preserves uniqueness of the keys. -/
theorem nodup_regKeys_insertReg (reg : Registry) (k : String)
    (v : List String) (h : (regKeys reg).Nodup) :
    (regKeys (insertReg reg k v)).Nodup := by
  rw [regKeys_insertReg]
  by_cases hk : k ∈ regKeys reg
  · simpa [hk] using h
  · simp [hk, List.nodup_append, h]

/-! ## Serialization round-trip lemmas -/

/-- Decoding inverts encoding for string arrays. -/
theorem decodeStrings_encode (names : List String) :
    decodeStrings (names.map Json.jstr) = some names := by
  induction names with
  | nil => rfl
  | cons s rest ih => simp [decodeStrings, ih]

/-- Decoding inverts encoding for the containers object: folding the entries
of the encoded object into an accumulator with disjoint keys appends them. -/
theorem decodeContainers_encode (reg : Registry) (acc : Registry)
    (hnd : (regKeys reg).Nodup)
    (hdisj : ∀ k ∈ regKeys acc, k ∉ regKeys reg) :
    decodeContainers (reg.map fun p => (p.1, encodeNames p.2)) acc
      = some (acc ++ reg) := by
  induction reg generalizing acc with
  | nil => simp [decodeContainers]
  | cons p rest ih =>
      obtain ⟨k, v⟩ := p
      have hknotacc : k ∉ regKeys acc := by
        intro hmem
        exact hdisj k hmem (by simp [regKeys])
      have hnd1 : (regKeys rest).Nodup := by
        simpa [regKeys] using hnd.of_cons
      have hknotrest : k ∉ regKeys rest := by
        have := hnd
        simp only [regKeys, List.map_cons, List.nodup_cons] at this
        simpa [regKeys] using this.1
      have step : decodeContainers ((k, encodeNames v) ::
            rest.map fun p => (p.1, encodeNames p.2)) acc
          = decodeContainers (rest.map fun p => (p.1, encodeNames p.2))
              (insertReg acc k v) := by
        simp [decodeContainers, encodeNames, decodeStrings_encode]
      rw [List.map_cons]
      rw [step]
      rw [insertReg_append acc k v hknotacc]
      rw [ih (acc ++ [(k, v)]) hnd1 (by
        intro k1 hk1
        simp only [regKeys, List.map_append, List.mem_append] at hk1
        rcases hk1 with hk1 | hk1
        · intro hr
          apply hdisj k1 hk1
          simp only [regKeys, List.map_cons, List.mem_cons]
          exact Or.inr (by simpa [regKeys] using hr)
        · simp only [List.map_cons, List.map_nil, List.mem_cons,
            List.not_mem_nil, or_false] at hk1
          subst hk1
          exact hknotrest)]
      simp

/-- Round-trip of the JSON serialization of the registry. -/
theorem storageFromJson_storageToJson (reg : Registry)
    (hnd : (regKeys reg).Nodup) :
    storageFromJson (storageToJson reg) = some reg := by
  have h1 : findContainersValue
      [("containers", Json.jobj (reg.map fun p => (p.1, encodeNames p.2)))]
      = some (Json.jobj (reg.map fun p => (p.1, encodeNames p.2))) := by
    simp [findContainersValue, hasContainersKey]
  simp [storageToJson, storageFromJson, h1,
    decodeContainers_encode reg [] hnd (by simp [regKeys])]

/-- Save-then-load helper: loading a just-saved registry with unique keys
returns it unchanged. -/
theorem load_storage_save_storage (reg : Registry)
    (hnd : (regKeys reg).Nodup) :
    load_storage (save_storage reg) = .ok reg := by
  simp [load_storage, save_storage, storageFromJson_storageToJson reg hnd]

/-- Loading back a just-saved registry inside `init` returns it unchanged. -/
theorem load_or_empty_save (reg : Registry) (hnd : (regKeys reg).Nodup) :
    load_or_empty (save_storage reg) = reg := by
  unfold load_or_empty
  rw [load_storage_save_storage reg hnd]

/-- A registry built by `decodeContainers` from an accumulator with unique
keys has unique keys (it is built with `insertReg`). -/
theorem decodeContainers_nodup (entries : List (String × Json))
    (acc reg : Registry) (hacc : (regKeys acc).Nodup)
    (h : decodeContainers entries acc = some reg) :
    (regKeys reg).Nodup := by
  induction entries generalizing acc with
  | nil =>
      simp only [decodeContainers, Option.some.injEq] at h
      subst h
      exact hacc
  | cons p rest ih =>
      obtain ⟨k, j⟩ := p
      cases j with
      | jarr elems =>
          simp only [decodeContainers] at h
          cases hd : decodeStrings elems with
          | none => rw [hd] at h; exact absurd h (by simp)
          | some names =>
              rw [hd] at h
              exact ih (insertReg acc k names)
                (nodup_regKeys_insertReg acc k names hacc) h
      | jnull => exact absurd h (by simp [decodeContainers])
      | jbool b => exact absurd h (by simp [decodeContainers])
      | jnum n => exact absurd h (by simp [decodeContainers])
      | jstr s => exact absurd h (by simp [decodeContainers])
      | jobj fields => exact absurd h (by simp [decodeContainers])

/-- Every registry `load_storage` returns has unique keys. -/
theorem load_storage_nodup (fs : FileState) (reg : Registry)
    (h : load_storage fs = .ok reg) : (regKeys reg).Nodup := by
  match fs with
  | none =>
      simp only [load_storage, Except.ok.injEq] at h
      subst h
      simp [regKeys]
  | some .notJson => exact absurd h (by simp [load_storage])
  | some (.jsonDoc j) =>
      simp only [load_storage] at h
      cases hj : storageFromJson j with
      | none => rw [hj] at h; exact absurd h (by simp)
      | some reg1 =>
          rw [hj] at h
          simp only [Except.ok.injEq] at h
          subst h
          match j, hj with
          | .jobj fields, hj =>
              simp only [storageFromJson] at hj
              cases hf : findContainersValue fields with
              | none => rw [hf] at hj; exact absurd hj (by simp)
              | some jv =>
                  rw [hf] at hj
                  match jv, hj with
                  | .jobj entries, hj =>
                      exact decodeContainers_nodup entries [] reg1
                        (by simp [regKeys]) hj
                  | .jnull, hj => exact absurd hj (by simp)
                  | .jbool b, hj => exact absurd hj (by simp)
                  | .jnum n, hj => exact absurd hj (by simp)
                  | .jstr s, hj => exact absurd hj (by simp)
                  | .jarr elems, hj => exact absurd hj (by simp)

/-- The registry `init` starts from always has unique keys. -/
theorem load_or_empty_nodup (fs : FileState) :
    (regKeys (load_or_empty fs)).Nodup := by
  unfold load_or_empty
  cases h : load_storage fs with
  | ok reg => exact load_storage_nodup fs reg h
  | error e => simp [regKeys]

/-- Characterization of a successful `init`: it saves the prior registry
(or the empty one when loading fails) with the entry for the host replaced
by the parsed remote output. -/
theorem init_containers_ok (sshname : String) (out : CmdOutput)
    (h : out.success = true) (fs : FileState) :
    init_containers sshname (some out) fs
      = .ok (save_storage (insertReg (load_or_empty fs) sshname
          (parseContainerNames out.stdout))) := by
  simp [init_containers, h]

/-- Whether the file contents parse as a `DevboxStorage` document. -/
def FileContent.parses : FileContent → Bool
  | .notJson => false
  | .jsonDoc j => (storageFromJson j).isSome

/-! ## Claim theorems -/

/-- Claim C2: save/load round-trip — for every registry (host keys unique,
as in a `HashMap`), calling `save_storage` and then `load_storage` returns a
registry equal to the original: same keys and, per key, the same value
sequence in the same order. -/
theorem c2_save_load_roundtrip (reg : Registry)
    (hnd : (regKeys reg).Nodup) :
    load_storage (save_storage reg) = .ok reg :=
  load_storage_save_storage reg hnd

/-- Witness for C2 at a concrete registry. -/
theorem c2_save_load_roundtrip_witness :
    load_storage (save_storage [("hostA", ["web", "db"]), ("hostB", [])])
      = .ok [("hostA", ["web", "db"]), ("hostB", [])] :=
  c2_save_load_roundtrip [("hostA", ["web", "db"]), ("hostB", [])]
    (by decide)

/-- Claim C3: when the persisted storage file does not exist, `load_storage`
returns an empty registry and no error. -/
theorem c3_missing_file_empty_registry :
    load_storage none = .ok [] := rfl

/-- Claim C4: when the storage file exists but its contents are not valid
structured data (not JSON, or JSON of the wrong shape), `load_storage` fails
with the DataCorruption (`InvalidData`) error — it never succeeds, in
particular not with an empty registry. -/
theorem c4_corrupt_file_data_corruption (c : FileContent)
    (h : c.parses = false) :
    load_storage (some c) = .error .invalidData := by
  cases c with
  | notJson => rfl
  | jsonDoc j =>
      cases hj : storageFromJson j with
      | none => simp [load_storage, hj]
      | some reg =>
          exact absurd h (by simp [FileContent.parses, hj])

/-- Witness for C4 at a concrete corrupt file. -/
theorem c4_corrupt_file_witness :
    load_storage (some .notJson) = .error .invalidData :=
  c4_corrupt_file_data_corruption .notJson rfl

/-- Claim C5: in `fetch_container_ip`, if the network-name query succeeds
but its trimmed stdout is empty, the result is the NotFound error and the
second (IP) query is never attempted (the attempt flag is `false`); if
either query exits non-zero, the result is the corresponding
RemoteCommandError. -/
theorem c5_fetch_error_paths (nOut iOut : CmdOutput) :
    (nOut.success = true → rustTrim nOut.stdout = "" →
      fetch_container_ip (some nOut) (some iOut)
        = (.error noNetworkFoundErr, false)) ∧
    (nOut.success = false →
      fetch_container_ip (some nOut) (some iOut)
        = (.error fetchNetworkErr, false)) ∧
    (nOut.success = true → rustTrim nOut.stdout ≠ "" → iOut.success = false →
      fetch_container_ip (some nOut) (some iOut)
        = (.error fetchIpErr, true)) := by
  refine ⟨?_, ?_, ?_⟩
  · intro hs he
    simp [fetch_container_ip, hs, he, noNetworkFoundErr]
  · intro hs
    simp [fetch_container_ip, hs, fetchNetworkErr]
  · intro hs hne hi
    simp [fetch_container_ip, hs, hne, hi, fetchIpErr]

/-- Witness for C5: an empty (whitespace-only) network name yields NotFound
without attempting the IP query. -/
theorem c5_fetch_error_paths_witness :
    fetch_container_ip (some ⟨true, " \n", ""⟩) (some ⟨true, "172.17.0.2", ""⟩)
      = (.error noNetworkFoundErr, false) :=
  (c5_fetch_error_paths ⟨true, " \n", ""⟩ ⟨true, "172.17.0.2", ""⟩).1
    rfl (by decide)

/-- Claim C6: whenever IP resolution succeeds, the `fp` subcommand builds
the forward command exactly as `ssh -L <port>:<ip>:<port> <host> -N` with
the resolved IP substituted verbatim; and concretely, `fp` for host `hostA`,
port `8080`, with the network query answering `bridge` and the IP query
answering `172.17.0.2`, builds exactly
`ssh -L 8080:172.17.0.2:8080 hostA -N`. -/
theorem c6_fp_forward_command (sshname port ip : String)
    (netOut ipOut : Option CmdOutput)
    (h : (fetch_container_ip netOut ipOut).1 = .ok ip) :
    fp_built_command sshname port netOut ipOut
      = some ("ssh -L " ++ port ++ ":" ++ ip ++ ":" ++ port ++ " "
          ++ sshname ++ " -N") ∧
    fp_built_command "hostA" "8080" (some ⟨true, "bridge\n", ""⟩)
        (some ⟨true, "172.17.0.2\n", ""⟩)
      = some "ssh -L 8080:172.17.0.2:8080 hostA -N" := by
  constructor
  · simp [fp_built_command, h, fp_command]
  · decide

/-- Witness for C6 at concrete query results. -/
theorem c6_fp_forward_command_witness :
    fp_built_command "hostB" "9090" (some ⟨true, "bridge\n", ""⟩)
        (some ⟨true, "10.0.0.5\n", ""⟩)
      = some ("ssh -L " ++ "9090" ++ ":" ++ "10.0.0.5" ++ ":" ++ "9090"
          ++ " " ++ "hostB" ++ " -N") :=
  (c6_fp_forward_command "hostB" "9090" "10.0.0.5"
    (some ⟨true, "bridge\n", ""⟩) (some ⟨true, "10.0.0.5\n", ""⟩) rfl).1

/-- Claim C7: for every host and container, the `nvim` subcommand command
string is exactly `ssh <host> -t ` followed by the single-quoted remote part
`docker exec -it <container> bash -c "tmux attach-session -t nvim || tmux
new-session -s nvim"`, with host and container inserted verbatim (no
escaping). -/
theorem c7_nvim_command_structure (sshname container : String) :
    nvim_command sshname container
      = "ssh " ++ sshname ++ " -t \x27" ++ nvim_remote_part container
          ++ "\x27" := by
  unfold nvim_command nvim_remote_part
  simp only [String.append_assoc]
  rw [← String.append_assoc " -t \x27" "docker exec -it "]
  rw [show (" -t \x27" ++ "docker exec -it " : String)
      = " -t \x27docker exec -it " by decide]
  rw [show (" bash -c \"tmux attach-session -t nvim || tmux new-session -s nvim\""
        ++ "\x27" : String)
      = " bash -c \"tmux attach-session -t nvim || tmux new-session -s nvim\"\x27"
      by decide]

/-- Claim C1: a successful `init` maps the host to exactly the parsed remote
list; two successive runs for the same host leave the host mapped to exactly
the second result — the prior entry is replaced wholesale, never merged. -/
theorem c1_init_replaces_wholesale (fs : FileState) (host : String)
    (o1 o2 : CmdOutput) (h1 : o1.success = true) (h2 : o2.success = true)
    (fs1 fs2 : FileState)
    (e1 : init_containers host (some o1) fs = .ok fs1)
    (e2 : init_containers host (some o2) fs1 = .ok fs2) :
    (∃ reg1, load_storage fs1 = .ok reg1 ∧
       lookupReg reg1 host = some (parseContainerNames o1.stdout)) ∧
    (∃ reg2, load_storage fs2 = .ok reg2 ∧
       lookupReg reg2 host = some (parseContainerNames o2.stdout)) := by
  rw [init_containers_ok host o1 h1 fs] at e1
  have hfs1 : fs1 = save_storage (insertReg (load_or_empty fs) host
      (parseContainerNames o1.stdout)) := by
    injection e1 with h
    exact h.symm
  subst hfs1
  rw [init_containers_ok host o2 h2 _] at e2
  have hfs2 : fs2 = save_storage (insertReg
      (load_or_empty (save_storage (insertReg (load_or_empty fs) host
        (parseContainerNames o1.stdout)))) host
      (parseContainerNames o2.stdout)) := by
    injection e2 with h
    exact h.symm
  subst hfs2
  have hnd1 : (regKeys (insertReg (load_or_empty fs) host
      (parseContainerNames o1.stdout))).Nodup :=
    nodup_regKeys_insertReg _ _ _ (load_or_empty_nodup fs)
  have hloe := load_or_empty_save _ hnd1
  constructor
  · exact ⟨_, load_storage_save_storage _ hnd1, lookupReg_insert_self _ _ _⟩
  · rw [hloe]
    have hnd2 := nodup_regKeys_insertReg _ host (parseContainerNames o2.stdout)
      hnd1
    exact ⟨_, load_storage_save_storage _ hnd2, lookupReg_insert_self _ _ _⟩

/-- Witness for C1: two concrete runs with different remote results. -/
theorem c1_init_replaces_wholesale_witness :
    (∃ reg1, load_storage (save_storage [("hostA", ["web", "db"])])
        = .ok reg1 ∧
       lookupReg reg1 "hostA" = some (parseContainerNames "web\ndb\n")) ∧
    (∃ reg2, load_storage (save_storage [("hostA", ["cache"])]) = .ok reg2 ∧
       lookupReg reg2 "hostA" = some (parseContainerNames "cache\n")) :=
  c1_init_replaces_wholesale none "hostA"
    ⟨true, "web\ndb\n", ""⟩ ⟨true, "cache\n", ""⟩ rfl rfl
    (save_storage [("hostA", ["web", "db"])])
    (save_storage [("hostA", ["cache"])])
    rfl rfl

/-- Claim C8: `init` stores each stdout line trimmed of surrounding
whitespace, in order, with no filtering of lines that trim to empty; in
particular a remote line list `["web", "db", ""]` is stored exactly as
`["web", "db", ""]`. -/
theorem c8_init_stores_trimmed_lines (fs : FileState) (host : String)
    (out : CmdOutput) (hsucc : out.success = true) (fs1 : FileState)
    (e : init_containers host (some out) fs = .ok fs1) :
    ∃ reg, load_storage fs1 = .ok reg ∧
      lookupReg reg host = some ((rustLines out.stdout).map rustTrim) ∧
      (rustLines out.stdout = ["web", "db", ""] →
        lookupReg reg host = some ["web", "db", ""]) := by
  rw [init_containers_ok host out hsucc fs] at e
  have hfs1 : fs1 = save_storage (insertReg (load_or_empty fs) host
      (parseContainerNames out.stdout)) := by
    injection e with h
    exact h.symm
  subst hfs1
  have hnd1 := nodup_regKeys_insertReg (load_or_empty fs) host
    (parseContainerNames out.stdout) (load_or_empty_nodup fs)
  refine ⟨_, load_storage_save_storage _ hnd1, ?_, ?_⟩
  · exact lookupReg_insert_self _ _ _
  · intro hlines
    rw [lookupReg_insert_self]
    unfold parseContainerNames
    rw [hlines]
    decide

/-- Witness for C8: stdout `web\ndb\n\n` has line list `["web", "db", ""]`
and is stored as exactly that. -/
theorem c8_init_stores_trimmed_lines_witness :
    ∃ reg, load_storage (save_storage [("hostA", ["web", "db", ""])])
        = .ok reg ∧
      lookupReg reg "hostA" = some ((rustLines "web\ndb\n\n").map rustTrim) ∧
      (rustLines "web\ndb\n\n" = ["web", "db", ""] →
        lookupReg reg "hostA" = some ["web", "db", ""]) :=
  c8_init_stores_trimmed_lines none "hostA" ⟨true, "web\ndb\n\n", ""⟩ rfl
    (save_storage [("hostA", ["web", "db", ""])]) rfl

/-- Claim C10: when loading fails during `init`, the empty registry is
silently substituted, so the saved file holds exactly the one entry for the
initialized host (all other previously persisted entries are lost); when
loading succeeds, every other host keeps its entry unchanged. -/
theorem c10_init_frame (fs : FileState) (host : String) (out : CmdOutput)
    (hsucc : out.success = true) :
    (∀ e, load_storage fs = .error e →
       init_containers host (some out) fs
         = .ok (save_storage [(host, parseContainerNames out.stdout)])) ∧
    (∀ reg, load_storage fs = .ok reg →
       init_containers host (some out) fs
         = .ok (save_storage (insertReg reg host
             (parseContainerNames out.stdout))) ∧
       ∀ other, other ≠ host →
         lookupReg (insertReg reg host (parseContainerNames out.stdout)) other
           = lookupReg reg other) := by
  constructor
  · intro e he
    rw [init_containers_ok host out hsucc fs]
    have hloe : load_or_empty fs = [] := by
      unfold load_or_empty
      rw [he]
    rw [hloe]
    rfl
  · intro reg hreg
    have hloe : load_or_empty fs = reg := by
      unfold load_or_empty
      rw [hreg]
    constructor
    · rw [init_containers_ok host out hsucc fs, hloe]
    · intro other hne
      exact lookupReg_insert_other reg host other _ hne

/-- Witness for C10: a corrupt prior file leads to a saved file with exactly
the one just-initialized entry. -/
theorem c10_init_frame_witness :
    init_containers "hostA" (some ⟨true, "web\n", ""⟩) (some .notJson)
      = .ok (save_storage [("hostA", parseContainerNames "web\n")]) :=
  (c10_init_frame (some .notJson) "hostA" ⟨true, "web\n", ""⟩ rfl).1
    .invalidData rfl

/-- Counterexample to claim C9 as stated: when spawning the shell for the
constructed `nvim` command fails, the process does not proceed to a normal
exit — `expect` panics with `Failed to execute command`. -/
theorem c9_spawn_failure_panics :
    run_subcommand (.nvim "hostA" "web") ⟨none, none, none, none, none⟩
      = .panicked "Failed to execute command" ∧
    (run_subcommand (.nvim "hostA" "web")
      ⟨none, none, none, none, none⟩).isFinished = false :=
  ⟨rfl, rfl⟩

/-- Claim C9 (amended): every error returned by a subcommand operation is
caught at the subcommand boundary, reported as a line on standard error, and
the process proceeds to a normal exit — except when spawning the shell for a
constructed command fails, in which case the process panics via `expect`
instead of exiting normally. -/
theorem c9_errors_reported_no_crash (env : Env) :
    (∀ cli : Cli, env.spawnStatus.isSome = true →
      (run_subcommand cli env).isFinished = true) ∧
    (∀ s e, init_containers s env.listOut env.fs = .error e →
      run_subcommand (.init s) env
        = .finished [] ["Error initializing containers: " ++ errMsg e]) ∧
    (∀ e, load_storage env.fs = .error e →
      run_subcommand .list env
        = .finished [] ["Error loading storage: " ++ errMsg e]) ∧
    (∀ s c p e, (fetch_container_ip env.netOut env.ipOut).1 = .error e →
      run_subcommand (.fp s c p) env
        = .finished []
            ["Failed to fetch IP for container \x27" ++ c ++ "\x27: "
              ++ errMsg e]) ∧
    (∀ s c, env.spawnStatus = none →
      run_subcommand (.nvim s c) env
        = .panicked "Failed to execute command") := by
  refine ⟨?_, ?_, ?_, ?_, ?_⟩
  · intro cli hs
    obtain ⟨b, hb⟩ := Option.isSome_iff_exists.mp hs
    cases cli with
    | init s =>
        cases h : init_containers s env.listOut env.fs with
        | ok fs1 => simp [run_subcommand, h, ProcResult.isFinished]
        | error e => simp [run_subcommand, h, ProcResult.isFinished]
    | nvim s c =>
        cases b with
        | true =>
            simp [run_subcommand, execute_command, hb, ProcResult.isFinished]
        | false =>
            simp [run_subcommand, execute_command, hb, ProcResult.isFinished]
    | list =>
        cases h : load_storage env.fs with
        | ok reg => simp [run_subcommand, h, ProcResult.isFinished]
        | error e => simp [run_subcommand, h, ProcResult.isFinished]
    | fp s c p =>
        cases h : (fetch_container_ip env.netOut env.ipOut).1 with
        | ok ip =>
            cases b with
            | true =>
                simp [run_subcommand, h, execute_command, hb,
                  ProcResult.isFinished]
            | false =>
                simp [run_subcommand, h, execute_command, hb,
                  ProcResult.isFinished]
        | error e => simp [run_subcommand, h, ProcResult.isFinished]
    | invalid => simp [run_subcommand, ProcResult.isFinished]
  · intro s e h
    simp [run_subcommand, h]
  · intro e h
    simp [run_subcommand, h]
  · intro s c p e h
    simp [run_subcommand, h]
  · intro s c h
    simp [run_subcommand, execute_command, h]

/-- Witness for C9 (amended): a corrupt storage file makes `list` report the
error on stderr and exit normally. -/
theorem c9_errors_reported_witness :
    run_subcommand .list ⟨some .notJson, none, none, none, some true⟩
      = .finished [] ["Error loading storage: " ++ errMsg .invalidData] :=
  (c9_errors_reported_no_crash
    ⟨some .notJson, none, none, none, some true⟩).2.2.1 .invalidData rfl

end Devbox
